import Mathlib

/-!
Verification of the tinman-chat streaming/artifact subsystem.

This file shallowly embeds the schema-validation adapter
(`lib/ai/zod-v4-adapter`, shown inline in `eslint.config.ts`), the code and
sheet document handlers (`artifacts/code/server.ts`, the sheet handler file),
the `createDocument` / `updateDocument` tools, and the chat POST request
schema (`app/(app)/api/chat/schema.ts`), and proves properties about them.
-/

namespace TinmanChat

/-- A primitive JSON value, as used by `z.literal` (zod literals are
primitives). -/
inductive Prim where
  | str (s : String)
  | num (n : Int)
  | bool (b : Bool)
  | null
deriving DecidableEq, Repr

/-- A runtime JSON value flowing through the pipeline.  JavaScript numbers are
modelled as integers (no claim in scope depends on fractional values). -/
inductive JsonVal where
  | str (s : String)
  | num (n : Int)
  | bool (b : Bool)
  | null
  | arr (items : List JsonVal)
  | obj (fields : List (String × JsonVal))
deriving Repr

/-- JavaScript truthiness, as used by the handlers' `if (code)` / `if (csv)`
guards.  Objects and arrays are always truthy; `""`, `0`, `false`, `null`
(and an absent field, handled at the call sites) are falsy. -/
def truthy : JsonVal → Bool
  | .str s => !(s == "")
  | .num n => !(n == 0)
  | .bool b => b
  | .null => false
  | .arr _ => true
  | .obj _ => true

/-- Field lookup in a JSON object (JavaScript property access; objects cannot
have duplicate keys, and lookup takes the first binding). -/
def jLookup : List (String × JsonVal) → String → Option JsonVal
  | [], _ => none
  | (k2, v) :: rest, k => if k2 == k then some v else jLookup rest k

/-- Reads a string-valued property of a JSON object, defaulting to `""`
(models `value.field` where the field is known to be a string). -/
def jStrField (v : JsonVal) (k : String) : String :=
  match v with
  | .obj fields =>
    match jLookup fields k with
    | some (.str s) => s
    | _ => ""
  | _ => ""

/-- A string refinement check recognized by the adapter: the five check kinds
handled by the `switch (check.kind)` in `createEquivalentV3Schema`
(`min`, `max`, `email`, `uuid`, `url`), which are also the only string checks
the repository's schemas use. -/
inductive StrCheck where
  | minLen (n : Nat)
  | maxLen (n : Nat)
  | email
  | uuid
  | url
deriving DecidableEq, Repr

/-- Models the zod email format check.  Both library imports in the adapter
resolve to the same module, so the exact predicate is shared by both sides; the
adapter theorems are insensitive to its precise definition.  Simplified to:
exactly one `@` separating two nonempty halves. -/
def isEmailStr (s : String) : Bool :=
  match s.splitOn "@" with
  | [a, b] => !(a == "") && !(b == "")
  | _ => false

/-- A hexadecimal digit. -/
def isHexDigit (c : Char) : Bool :=
  c.isDigit || (('a' ≤ c) && (c ≤ 'f')) || (('A' ≤ c) && (c ≤ 'F'))

/-- Models the zod uuid format check: 36 characters, hyphens at positions
8, 13, 18 and 23, hexadecimal digits elsewhere. -/
def isUuidStr (s : String) : Bool :=
  let cs := s.toList
  cs.length == 36 &&
    (List.range 36).all fun i =>
      if i == 8 || i == 13 || i == 18 || i == 23 then cs.getD i ' ' == '-'
      else isHexDigit (cs.getD i ' ')

/-- Models the zod url format check (`new URL(s)` succeeding), simplified to
an http or https scheme followed by a nonempty remainder. -/
def isUrlStr (s : String) : Bool :=
  let cs := s.toList
  (cs.take 7 == "http://".toList && 7 < cs.length) ||
    (cs.take 8 == "https://".toList && 8 < cs.length)

/-- Whether one string check passes on a string (zod string length counts are
modelled with `String.length`). -/
def strCheckOk : StrCheck → String → Bool
  | .minLen n, s => n ≤ s.length
  | .maxLen n, s => s.length ≤ n
  | .email, s => isEmailStr s
  | .uuid, s => isUuidStr s
  | .url, s => isUrlStr s

/-- The schema AST.  The first seven constructors are the node kinds the
adapter's `createEquivalentV3Schema` recognizes (`ZodObject`, `ZodString`,
`ZodEnum`, `ZodArray`, `ZodUnion`, `ZodOptional`, `ZodLiteral`).  `num` is
`ZodNumber` (used by the weather tool but NOT recognized by the adapter's
switch), `anyS` is `ZodAny` (`z.any()`, the permissive node the fallback
produces — itself not a recognized input kind), and `noDef` stands for a value
lacking a `_def`/`typeName`, which hits the adapter's bottom fallback. -/
inductive Schema where
  | obj (shape : List (String × Schema))
  | str (checks : List StrCheck)
  | enumS (values : List String)
  | arrS (elem : Schema)
  | union (options : List Schema)
  | opt (inner : Schema)
  | lit (v : Prim)
  | num
  | anyS
  | noDef
deriving Repr

/-- Whether a literal primitive matches a runtime value. -/
def primMatches : Prim → JsonVal → Bool
  | .str a, .str b => a == b
  | .num a, .num b => a == b
  | .bool a, .bool b => a == b
  | .null, .null => true
  | _, _ => false

mutual

/-- Whether a schema accepts an absent (`undefined`) object field: optionals
do, and so does the permissive `any` (and the `noDef` stand-in, whose parse
semantics are modelled as permissive); a union does when one option does. -/
def acceptsUndefined : Schema → Bool
  | .opt _ => true
  | .anyS => true
  | .noDef => true
  | .union options => anyAcceptsUndefined options
  | _ => false

/-- Whether any schema in a list accepts an absent field. -/
def anyAcceptsUndefined : List Schema → Bool
  | [] => false
  | s :: rest => acceptsUndefined s || anyAcceptsUndefined rest

end

mutual

/-- Models `schema.parse(value)` of the zod library: returns the parsed value
(objects stripped to their declared keys) or a validation error.  Both library
imports in the adapter resolve to the same module, so one parse semantics
covers both sides of the conversion. -/
def zodParse : Schema → JsonVal → Except String JsonVal
  | .obj shape, .obj fields => (zodParseShape shape fields).map JsonVal.obj
  | .obj _, _ => .error "expected object"
  | .str checks, .str s =>
    if checks.all (fun c => strCheckOk c s) then .ok (.str s)
    else .error "invalid string"
  | .str _, _ => .error "expected string"
  | .enumS values, .str s =>
    if values.contains s then .ok (.str s) else .error "invalid enum value"
  | .enumS _, _ => .error "invalid enum value"
  | .arrS elem, .arr items => (zodParseList elem items).map JsonVal.arr
  | .arrS _, _ => .error "expected array"
  | .union options, v => zodParseUnion options v
  | .opt inner, v => zodParse inner v
  | .lit p, v => if primMatches p v then .ok v else .error "invalid literal"
  | .num, .num n => .ok (.num n)
  | .num, _ => .error "expected number"
  | .anyS, v => .ok v
  | .noDef, v => .ok v

/-- Parses an object's declared fields in shape order: an absent field is
allowed only when its schema accepts `undefined` (and is then omitted from the
output, as zod omits absent optional keys). -/
def zodParseShape :
    List (String × Schema) → List (String × JsonVal) →
      Except String (List (String × JsonVal))
  | [], _ => .ok []
  | (k, s) :: rest, fields =>
    match jLookup fields k with
    | none =>
      if acceptsUndefined s then zodParseShape rest fields
      else .error "required field missing"
    | some v =>
      match zodParse s v with
      | .error e => .error e
      | .ok v2 =>
        match zodParseShape rest fields with
        | .error e => .error e
        | .ok out => .ok ((k, v2) :: out)

/-- Parses every element of an array against the element schema. -/
def zodParseList : Schema → List JsonVal → Except String (List JsonVal)
  | _, [] => .ok []
  | s, v :: rest =>
    match zodParse s v with
    | .error e => .error e
    | .ok v2 =>
      match zodParseList s rest with
      | .error e => .error e
      | .ok out => .ok (v2 :: out)

/-- Parses a value against union options in order, returning the first
success (zod union semantics). -/
def zodParseUnion : List Schema → JsonVal → Except String JsonVal
  | [], _ => .error "no union option matched"
  | s :: rest, v =>
    match zodParse s v with
    | .ok v2 => .ok v2
    | .error _ => zodParseUnion rest v

end

/-- Whether a schema accepts a value: its parse succeeds. -/
def accepts (s : Schema) (v : JsonVal) : Bool :=
  (zodParse s v).isOk

/-- Translation of one string check by the `switch (check.kind)` inside the
adapter's `ZodString` case: each of the five handled kinds appends the
same-named check (with the same bound) to the v3 string schema. -/
def translateCheck : StrCheck → List StrCheck
  | .minLen n => [.minLen n]
  | .maxLen n => [.maxLen n]
  | .email => [.email]
  | .uuid => [.uuid]
  | .url => [.url]

/-- The check list accumulated by the adapter's `for (const check of
schema._def.checks)` loop. -/
def convertChecks : List StrCheck → List StrCheck
  | [] => []
  | c :: rest => translateCheck c ++ convertChecks rest

mutual

/-- `AISDKZodV4Adapter.createEquivalentV3Schema` against the installed zod
(3.25.x, whose `_def` carries the v3 layout).  Recognized `typeName`s
(`ZodObject`, `ZodString`, `ZodEnum`, `ZodArray`, `ZodUnion`, `ZodOptional`,
`ZodLiteral`) take their switch case; every other node — an unrecognized
`typeName` such as `ZodNumber` or `ZodAny`, or a node with no
`_def`/`typeName` at all — falls back to `zv3.any()`.  In the `ZodObject`
case the source computes `Object.entries(schema._def.shape)`, but in zod
3.25.x `_def.shape` is a thunk `() => shape`, and `Object.entries` of a
function yields no entries: every object schema therefore converts to
`zv3.object({})` — the empty shape — and the declared fields are never
visited.  `ZodString._def.checks`, `ZodEnum._def.values`,
`ZodArray._def.type`, `ZodUnion._def.options`, `ZodOptional._def.innerType`
and `ZodLiteral._def.value` are plain values in 3.25.x, so those cases
convert as written.  The `console.warn` side channel is modelled separately
by `conversionWarnings`. -/
def createEquivalentV3Schema : Schema → Schema
  | .obj _ => .obj []
  | .str checks => .str (convertChecks checks)
  | .enumS values => .enumS values
  | .arrS elem => .arrS (createEquivalentV3Schema elem)
  | .union options => .union (convertList options)
  | .opt inner => .opt (createEquivalentV3Schema inner)
  | .lit v => .lit v
  | .num => .anyS
  | .anyS => .anyS
  | .noDef => .anyS

/-- Conversion of a list of union options. -/
def convertList : List Schema → List Schema
  | [] => []
  | s :: rest => createEquivalentV3Schema s :: convertList rest

end

mutual

/-- The `console.warn` diagnostics emitted during a conversion: exactly one
non-fatal message per unrecognized `typeName` reached by the recursion (the
switch's `default` case); the bottom fallback for a node lacking a
`_def`/`typeName` emits nothing.  The `ZodObject` case recurses over
`Object.entries(_def.shape)`, which is empty for the 3.25.x shape thunk, so
an object node never emits warnings from its fields. -/
def conversionWarnings : Schema → List String
  | .obj _ => []
  | .str _ => []
  | .enumS _ => []
  | .arrS elem => conversionWarnings elem
  | .union options => listWarnings options
  | .opt inner => conversionWarnings inner
  | .lit _ => []
  | .num => ["Unknown Zod v4 schema type: ZodNumber. Using generic schema."]
  | .anyS => ["Unknown Zod v4 schema type: ZodAny. Using generic schema."]
  | .noDef => []

/-- Warnings from converting a list of union options. -/
def listWarnings : List Schema → List String
  | [] => []
  | s :: rest => conversionWarnings s ++ listWarnings rest

end

/-- Whether a runtime value is a JSON object. -/
def isObjVal : JsonVal → Bool
  | .obj _ => true
  | _ => false

mutual

/-- Schemas containing no object node anywhere: the sub-fragment on which the
conversion is still shape-preserving (the object case is the one whose
`_def.shape` thunk defeats `Object.entries`). -/
def objectFree : Schema → Bool
  | .obj _ => false
  | .str _ => true
  | .enumS _ => true
  | .arrS elem => objectFree elem
  | .union options => listObjectFree options
  | .opt inner => objectFree inner
  | .lit _ => true
  | .num => true
  | .anyS => true
  | .noDef => true

/-- Object-freeness for a list of union options. -/
def listObjectFree : List Schema → Bool
  | [] => true
  | s :: rest => objectFree s && listObjectFree rest

end

mutual

/-- The fragment of recognized node kinds named by the spec: objects, strings
with min/max/email/uuid/url checks, enums, arrays, unions, optionals and
literals, recursively. -/
def inFragment : Schema → Bool
  | .obj shape => shapeInFragment shape
  | .str _ => true
  | .enumS _ => true
  | .arrS elem => inFragment elem
  | .union options => listInFragment options
  | .opt inner => inFragment inner
  | .lit _ => true
  | .num => false
  | .anyS => false
  | .noDef => false

/-- Fragment membership for an object shape. -/
def shapeInFragment : List (String × Schema) → Bool
  | [] => true
  | (_, s) :: rest => inFragment s && shapeInFragment rest

/-- Fragment membership for a list of union options. -/
def listInFragment : List Schema → Bool
  | [] => true
  | s :: rest => inFragment s && listInFragment rest

end

/-- The wrapper returned by `AISDKZodV4Adapter.createStreamingToolSchema`:
the converted v3 schema for AI SDK consumers, the original v4 schema, and the
`validate` entry point.  (The `inferType` member is a type-level artifact with
no runtime content and is not modelled.) -/
structure AISDKCompatibleSchema where
  aiSdkSchema : Schema
  v4Schema : Schema
  validate : JsonVal → Except String JsonVal

namespace AISDKZodV4Adapter

/-- `AISDKZodV4Adapter.convertToV3Schema`: delegates to
`createEquivalentV3Schema`. -/
def convertToV3Schema (v4Schema : Schema) : Schema :=
  createEquivalentV3Schema v4Schema

/-- `AISDKZodV4Adapter.createStreamingToolSchema`: builds the compatibility
wrapper; `validate` runs `v4Schema.parse` on the original v4 schema. -/
def createStreamingToolSchema (v4Schema : Schema) : AISDKCompatibleSchema :=
  { aiSdkSchema := convertToV3Schema v4Schema
    v4Schema := v4Schema
    validate := fun data => zodParse v4Schema data }

end AISDKZodV4Adapter

/-- One increment of a provider `fullStream`: either a partial-object delta
(`delta.type === "object"`, carrying the partial object) or any other delta
kind (`text-delta`, `error`, `finish`, ...), which the handler loops skip. -/
inductive ProviderDelta where
  | objectDelta (obj : List (String × JsonVal))
  | otherDelta
deriving Repr

/-- A typed event written to the UI data stream.  Every write modelled here
passes `transient: true` in the source. -/
inductive Event where
  | kindEv (k : String)
  | idEv (s : String)
  | titleEv (s : String)
  | clearEv
  | finishEv
  | codeDelta (s : String)
  | sheetDelta (s : String)
deriving DecidableEq, Repr

/-- Whether an event is an artifact content delta. -/
def Event.isContentDelta : Event → Bool
  | .codeDelta _ => true
  | .sheetDelta _ => true
  | _ => false

/-- The `transient` flag each modelled write passes to `dataStream.write`
(every write in the modelled files passes `transient: true`). -/
def Event.isTransientFlag : Event → Bool
  | .kindEv _ => true
  | .idEv _ => true
  | .titleEv _ => true
  | .clearEv => true
  | .finishEv => true
  | .codeDelta _ => true
  | .sheetDelta _ => true

/-- `codeStreamingSchemaV4` from `artifacts/code/server.ts`:
`z.object({ code: z.string().min(1, ...) })`. -/
def codeStreamingSchemaV4 : Schema := .obj [("code", .str [.minLen 1])]

/-- `codeAdapterSchema`: the compatibility wrapper for the code schema. -/
def codeAdapterSchema : AISDKCompatibleSchema :=
  AISDKZodV4Adapter.createStreamingToolSchema codeStreamingSchemaV4

/-- `sheetStreamingSchema` from the sheet handler:
`z.object({ csv: z.string().min(1, ...) })`. -/
def sheetStreamingSchema : Schema := .obj [("csv", .str [.minLen 1])]

/-- The `for await (const delta of fullStream)` loop shared verbatim by the
code handler's `onCreateDocument` and `onUpdateDocument`: for each `object`
delta, destructure `code`; if truthy, run the adapter `validate` on
`{ code }` (v4 `parse`, which throws — modelled as `Except.error` — on
failure), write a `data-codeDelta` event with the validated code, and replace
`draftContent` with it.  Returns the written events (in order) and the final
`draftContent`. -/
def processCodeDeltas :
    List ProviderDelta → String → List Event → Except String (List Event × String)
  | [], draft, acc => .ok (acc.reverse, draft)
  | .otherDelta :: rest, draft, acc => processCodeDeltas rest draft acc
  | .objectDelta o :: rest, draft, acc =>
    match jLookup o "code" with
    | none => processCodeDeltas rest draft acc
    | some v =>
      if truthy v then
        match codeAdapterSchema.validate (.obj [("code", v)]) with
        | .error e => .error e
        | .ok validated =>
          let c := jStrField validated "code"
          processCodeDeltas rest c (Event.codeDelta c :: acc)
      else processCodeDeltas rest draft acc

/-- `codeDocumentHandler.onCreateDocument`, as a function of the provider
stream it iterates: starts with `draftContent = ""`, runs the loop, and
returns the accumulated draft for persistence. -/
def codeDocumentHandlerOnCreate (deltas : List ProviderDelta) :
    Except String (List Event × String) :=
  processCodeDeltas deltas "" []

/-- `codeDocumentHandler.onUpdateDocument`: its delta loop is textually
identical to `onCreateDocument`'s (only the prompt fed to the provider
differs, which is upstream of the modelled stream). -/
def codeDocumentHandlerOnUpdate (deltas : List ProviderDelta) :
    Except String (List Event × String) :=
  processCodeDeltas deltas "" []

/-- The sheet handler's delta loop: like the code loop but destructuring
`csv`, validating with `sheetStreamingSchema.parse({ csv })` directly, and
writing `data-sheetDelta` events. -/
def processSheetDeltas :
    List ProviderDelta → String → List Event → Except String (List Event × String)
  | [], draft, acc => .ok (acc.reverse, draft)
  | .otherDelta :: rest, draft, acc => processSheetDeltas rest draft acc
  | .objectDelta o :: rest, draft, acc =>
    match jLookup o "csv" with
    | none => processSheetDeltas rest draft acc
    | some v =>
      if truthy v then
        match zodParse sheetStreamingSchema (.obj [("csv", v)]) with
        | .error e => .error e
        | .ok validated =>
          let c := jStrField validated "csv"
          processSheetDeltas rest c (Event.sheetDelta c :: acc)
      else processSheetDeltas rest draft acc

/-- `sheetDocumentHandler.onCreateDocument`: runs the loop from
`draftContent = ''`, then writes one final `data-sheetDelta` carrying the
final draft before returning it. -/
def sheetDocumentHandlerOnCreate (deltas : List ProviderDelta) :
    Except String (List Event × String) :=
  match processSheetDeltas deltas "" [] with
  | .error e => .error e
  | .ok (events, draft) => .ok (events ++ [Event.sheetDelta draft], draft)

/-- A `code` object delta carrying a (nonempty) code string, the shape a
well-behaved provider emits against `codeStreamingSchemaV4`. -/
def validCodeDelta (s : String) : ProviderDelta :=
  .objectDelta [("code", .str s)]

/-- A `csv` object delta carrying a (nonempty) csv string. -/
def validCsvDelta (s : String) : ProviderDelta :=
  .objectDelta [("csv", .str s)]

/-- Whether a runtime value is a string. -/
def isStrVal : JsonVal → Bool
  | .str _ => true
  | _ => false

/-- A delta object is benign for the code loop when its `code` field, if
truthy, is a string (so the v4 `parse` inside the loop cannot throw). -/
def codeFieldOk (o : List (String × JsonVal)) : Bool :=
  match jLookup o "code" with
  | some v => !truthy v || isStrVal v
  | none => true

/-- Every object delta in the stream is benign for the code loop. -/
def goodCodeDeltas : List ProviderDelta → Bool
  | [] => true
  | .objectDelta o :: rest => codeFieldOk o && goodCodeDeltas rest
  | .otherDelta :: rest => goodCodeDeltas rest

/-- The nonempty code strings carried by a stream's object deltas, in arrival
order (one entry per delta whose `code` field is a truthy string). -/
def codeChunks : List ProviderDelta → List String
  | [] => []
  | .otherDelta :: rest => codeChunks rest
  | .objectDelta o :: rest =>
    match jLookup o "code" with
    | some (.str s) => if s == "" then codeChunks rest else s :: codeChunks rest
    | _ => codeChunks rest

/-- A delta object is benign for the sheet loop when its `csv` field, if
truthy, is a string. -/
def csvFieldOk (o : List (String × JsonVal)) : Bool :=
  match jLookup o "csv" with
  | some v => !truthy v || isStrVal v
  | none => true

/-- Every object delta in the stream is benign for the sheet loop. -/
def goodCsvDeltas : List ProviderDelta → Bool
  | [] => true
  | .objectDelta o :: rest => csvFieldOk o && goodCsvDeltas rest
  | .otherDelta :: rest => goodCsvDeltas rest

/-- The nonempty csv strings carried by a stream's object deltas, in arrival
order. -/
def csvChunks : List ProviderDelta → List String
  | [] => []
  | .otherDelta :: rest => csvChunks rest
  | .objectDelta o :: rest =>
    match jLookup o "csv" with
    | some (.str s) => if s == "" then csvChunks rest else s :: csvChunks rest
    | _ => csvChunks rest

/-- Modelled from the spec: `artifactKinds` lives in `lib/artifacts/server`,
which is not among the visible sources; the spec's data model fixes the closed
kind set as code, prose (text), raster-image and tabular (sheet). -/
def artifactKinds : List String := ["text", "code", "image", "sheet"]

/-- `createDocumentSchemaV4` from `lib/ai/tools/create-document.ts`:
`z.object({ title: z.string().min(1, ...), kind: z.enum(artifactKinds) })`. -/
def createDocumentSchemaV4 : Schema :=
  .obj [("title", .str [.minLen 1]), ("kind", .enumS artifactKinds)]

/-- `updateDocumentSchemaV4` from the update-document tool:
`z.object({ id: z.string().min(1, ...), description: z.string().min(1, ...) })`. -/
def updateDocumentSchemaV4 : Schema :=
  .obj [("id", .str [.minLen 1]), ("description", .str [.minLen 1])]

/-- One entry of `documentHandlersByArtifactKind`: its kind tag and the
observable outcome of running `onCreateDocument` / `onUpdateDocument` (the
events the handler writes to the data stream, and whether it returns normally
or throws).  The handler registry itself lives in `lib/artifacts/server`
(not among the visible sources), so handlers are abstract here; the tools'
dispatch logic over the registry is fully modelled from the visible source. -/
structure DocumentHandler where
  kind : String
  onCreateDocument : List Event × Except String Unit
  onUpdateDocument : List Event × Except String Unit

/-- The object the createDocument tool's `execute` returns. -/
structure CreateDocumentResult where
  id : String
  title : String
  kind : String
  content : String
deriving DecidableEq, Repr

/-- A persisted document row, as returned by `getDocumentById`. -/
structure DocRow where
  id : String
  title : String
  kind : String
  content : String
deriving DecidableEq, Repr

/-- The updateDocument tool's normal returns: the `{ error: 'Document not
found' }` object, or the success object. -/
inductive UpdateOutcome where
  | notFound
  | updated (id : String) (title : String) (kind : String) (content : String)
deriving DecidableEq, Repr

/-- `createDocument(...).execute(params)` from
`lib/ai/tools/create-document.ts`, as a function of the handler registry, the
raw params and the generated UUID.  Returns the events written to the data
stream (in order) and either the tool result or the thrown error.  Validation
runs through the adapter wrapper's `validate` (v4 `parse`); on a validation
throw nothing has been written yet. -/
def createDocumentExecute (registry : List DocumentHandler) (params : JsonVal)
    (id : String) : List Event × Except String CreateDocumentResult :=
  match (AISDKZodV4Adapter.createStreamingToolSchema createDocumentSchemaV4).validate params with
  | .error e => ([], .error e)
  | .ok parsed =>
    let title := jStrField parsed "title"
    let kind := jStrField parsed "kind"
    let pre1 := [Event.kindEv kind, Event.idEv id, Event.titleEv title, Event.clearEv]
    match registry.find? (fun h => h.kind == kind) with
    | none => (pre1, .error ("No document handler found for kind: " ++ kind))
    | some handler =>
      match handler.onCreateDocument with
      | (hEvents, .error e) => (pre1 ++ hEvents, .error e)
      | (hEvents, .ok _) =>
        (pre1 ++ hEvents ++ [Event.finishEv],
          .ok ⟨id, title, kind,
            "A document was created and is now visible to the user."⟩)

/-- `updateDocument(...).execute(params)` from the update-document tool, as a
function of the registry, the raw params and the result of `getDocumentById`
(the external persistence lookup, passed in as `storedDocument`).  A missing
document is a normal `{ error: ... }` return with nothing written; otherwise
`data-clear` is written, the handler matching the stored document's kind is
looked up (throwing when absent), run, and `data-finish` written. -/
def updateDocumentExecute (registry : List DocumentHandler) (params : JsonVal)
    (storedDocument : Option DocRow) : List Event × Except String UpdateOutcome :=
  match (AISDKZodV4Adapter.createStreamingToolSchema updateDocumentSchemaV4).validate params with
  | .error e => ([], .error e)
  | .ok parsed =>
    let id := jStrField parsed "id"
    match storedDocument with
    | none => ([], .ok .notFound)
    | some document =>
      let pre1 := [Event.clearEv]
      match registry.find? (fun h => h.kind == document.kind) with
      | none => (pre1, .error ("No document handler found for kind: " ++ document.kind))
      | some handler =>
        match handler.onUpdateDocument with
        | (hEvents, .error e) => (pre1 ++ hEvents, .error e)
        | (hEvents, .ok _) =>
          (pre1 ++ hEvents ++ [Event.finishEv],
            .ok (.updated id document.title document.kind
              "The document has been updated successfully."))

/-- `textPartSchema` from `app/(app)/api/chat/schema.ts`. -/
def textPartSchema : Schema :=
  .obj [("type", .enumS ["text"]), ("text", .str [.minLen 1, .maxLen 2000])]

/-- `filePartSchema` from `app/(app)/api/chat/schema.ts`. -/
def filePartSchema : Schema :=
  .obj [("type", .enumS ["file"]),
    ("mediaType", .enumS ["image/jpeg", "image/png"]),
    ("name", .str [.minLen 1, .maxLen 100]),
    ("url", .str [.url])]

/-- `partSchema`: the union of text and file parts. -/
def partSchema : Schema := .union [textPartSchema, filePartSchema]

/-- `postRequestBodySchema` from `app/(app)/api/chat/schema.ts`. -/
def postRequestBodySchema : Schema :=
  .obj [("id", .str [.uuid]),
    ("message", .obj [("id", .str [.uuid]),
      ("role", .enumS ["user"]),
      ("parts", .arrS partSchema)]),
    ("selectedChatModel", .enumS ["chat-model", "chat-model-reasoning"]),
    ("selectedVisibilityType", .enumS ["public", "private"])]

/-- Accessing a property of a JSON value (`undefined` on non-objects). -/
def jGet (v : JsonVal) (k : String) : Option JsonVal :=
  match v with
  | .obj fields => jLookup fields k
  | _ => none

/-- A sample text part for exercising the request schema. -/
abbrev sampleTextPart : JsonVal :=
  .obj [("type", .str "text"), ("text", .str "hello")]

/-- A sample file part for exercising the request schema. -/
abbrev sampleFilePart : JsonVal :=
  .obj [("type", .str "file"), ("mediaType", .str "image/png"),
    ("name", .str "pic.png"), ("url", .str "https://example.com/pic.png")]

/-- A sample message object for exercising the request schema. -/
abbrev sampleMessage : JsonVal :=
  .obj [("id", .str "123e4567-e89b-12d3-a456-426614174001"),
    ("role", .str "user"),
    ("parts", .arr [sampleTextPart, sampleFilePart])]

/-- A sample chat POST body accepted by `postRequestBodySchema`. -/
abbrev samplePostBody : JsonVal :=
  .obj [("id", .str "123e4567-e89b-12d3-a456-426614174000"),
    ("message", sampleMessage),
    ("selectedChatModel", .str "chat-model"),
    ("selectedVisibilityType", .str "private")]

/-- Check translation is the identity (each of the five kinds maps to
itself). -/
theorem convertChecks_id (checks : List StrCheck) : convertChecks checks = checks := by
  induction checks with
  | nil => rfl
  | cons c rest ih => cases c <;> simp [convertChecks, translateCheck, ih]

mutual

/-- On the object-free part of the recognized fragment the conversion is the
structural identity: each such node maps to the same-shaped node with
identically translated checks.  (Object nodes are excluded: their
`_def.shape` thunk makes the source convert them to the empty shape.) -/
theorem convert_objFree_id (s : Schema) (h : inFragment s = true)
    (ho : objectFree s = true) : createEquivalentV3Schema s = s :=
  match s with
  | .obj shape => by
    rw [objectFree] at ho
    cases ho
  | .str checks => by
    rw [createEquivalentV3Schema, convertChecks_id]
  | .enumS values => rfl
  | .arrS elem => by
    rw [createEquivalentV3Schema,
      convert_objFree_id elem (by simpa [inFragment] using h)
        (by simpa [objectFree] using ho)]
  | .union options => by
    rw [createEquivalentV3Schema,
      convertList_objFree_id options (by simpa [inFragment] using h)
        (by simpa [objectFree] using ho)]
  | .opt inner => by
    rw [createEquivalentV3Schema,
      convert_objFree_id inner (by simpa [inFragment] using h)
        (by simpa [objectFree] using ho)]
  | .lit v => rfl
  | .num => by simp [inFragment] at h
  | .anyS => by simp [inFragment] at h
  | .noDef => by simp [inFragment] at h

/-- Option-list conversion is the identity on the object-free fragment. -/
theorem convertList_objFree_id (options : List Schema)
    (h : listInFragment options = true) (ho : listObjectFree options = true) :
    convertList options = options :=
  match options with
  | [] => rfl
  | s :: rest => by
    rw [convertList,
      convert_objFree_id s (by simp [listInFragment] at h; exact h.1)
        (by simp [listObjectFree] at ho; exact ho.1),
      convertList_objFree_id rest (by simp [listInFragment] at h; exact h.2)
        (by simp [listObjectFree] at ho; exact ho.2)]

end

/-- A nonempty string has length at least one. -/
theorem one_le_length_of_ne (s : String) (h : s ≠ "") : 1 ≤ s.length := by
  rcases s with ⟨cs⟩
  cases cs with
  | nil => simp at h
  | cons c rest => simp [String.length]

/-- Parsing `{ code: s }` against the code schema succeeds for any nonempty
string and returns the object unchanged. -/
theorem zodParse_code_str (s : String) (h : s ≠ "") :
    zodParse codeStreamingSchemaV4 (.obj [("code", .str s)]) =
      .ok (.obj [("code", .str s)]) := by
  simp [codeStreamingSchemaV4, zodParse, zodParseShape, jLookup, strCheckOk,
    Except.map, one_le_length_of_ne s h]

/-- Parsing `{ csv: s }` against the sheet schema succeeds for any nonempty
string and returns the object unchanged. -/
theorem zodParse_csv_str (s : String) (h : s ≠ "") :
    zodParse sheetStreamingSchema (.obj [("csv", .str s)]) =
      .ok (.obj [("csv", .str s)]) := by
  simp [sheetStreamingSchema, zodParse, zodParseShape, jLookup, strCheckOk,
    Except.map, one_le_length_of_ne s h]

/-- On a benign stream the code loop never throws: it emits exactly one
`data-codeDelta` event per truthy code chunk, in arrival order, and the final
draft is the last chunk (or the incoming draft when there is none). -/
theorem processCodeDeltas_good :
    ∀ (deltas : List ProviderDelta) (draft : String) (acc : List Event),
      goodCodeDeltas deltas = true →
      processCodeDeltas deltas draft acc =
        .ok (acc.reverse ++ (codeChunks deltas).map Event.codeDelta,
          (codeChunks deltas).getLastD draft) := by
  intro deltas
  induction deltas with
  | nil => intro draft acc h; simp [processCodeDeltas, codeChunks]
  | cons d rest ih =>
    intro draft acc h
    cases d with
    | otherDelta =>
      simp [goodCodeDeltas] at h
      simp [processCodeDeltas, codeChunks, ih draft acc h]
    | objectDelta o =>
      simp [goodCodeDeltas] at h
      obtain ⟨hok, hrest⟩ := h
      cases hv : jLookup o "code" with
      | none =>
        simp [processCodeDeltas, codeChunks, hv, ih draft acc hrest]
      | some v =>
        by_cases ht : truthy v = true
        · have hstr : isStrVal v = true := by
            simp [codeFieldOk, hv, ht] at hok; exact hok
          cases v with
          | str s =>
            have hne : s ≠ "" := by
              intro hs; rw [hs] at ht; simp [truthy] at ht
            simp only [processCodeDeltas, hv, ht, if_true]
            rw [show codeAdapterSchema.validate (JsonVal.obj [("code", JsonVal.str s)]) =
                zodParse codeStreamingSchemaV4 (JsonVal.obj [("code", JsonVal.str s)]) from rfl,
              zodParse_code_str s hne]
            simp only [jStrField, jLookup, beq_self_eq_true, if_true]
            rw [ih s (Event.codeDelta s :: acc) hrest]
            have hch : codeChunks (ProviderDelta.objectDelta o :: rest) = s :: codeChunks rest := by
              simp [codeChunks, hv, hne]
            rw [hch, List.getLastD_cons]
            simp
          | num n => simp [isStrVal] at hstr
          | bool b => simp [isStrVal] at hstr
          | null => simp [isStrVal] at hstr
          | arr items => simp [isStrVal] at hstr
          | obj fields => simp [isStrVal] at hstr
        · have ht' : truthy v = false := by revert ht; cases truthy v <;> simp
          have hch : codeChunks (ProviderDelta.objectDelta o :: rest) = codeChunks rest := by
            cases v with
            | str s =>
              have : s = "" := by revert ht'; simp [truthy]
              simp [codeChunks, hv, this]
            | num n => simp [codeChunks, hv]
            | bool b => simp [codeChunks, hv]
            | null => simp [codeChunks, hv]
            | arr items => simp [truthy] at ht'
            | obj fields => simp [truthy] at ht'
          simp [processCodeDeltas, hv, ht', hch, ih draft acc hrest]

/-- On a benign stream the sheet loop never throws: one `data-sheetDelta`
event per truthy csv chunk, in order, with the final draft the last chunk. -/
theorem processSheetDeltas_good :
    ∀ (deltas : List ProviderDelta) (draft : String) (acc : List Event),
      goodCsvDeltas deltas = true →
      processSheetDeltas deltas draft acc =
        .ok (acc.reverse ++ (csvChunks deltas).map Event.sheetDelta,
          (csvChunks deltas).getLastD draft) := by
  intro deltas
  induction deltas with
  | nil => intro draft acc h; simp [processSheetDeltas, csvChunks]
  | cons d rest ih =>
    intro draft acc h
    cases d with
    | otherDelta =>
      simp [goodCsvDeltas] at h
      simp [processSheetDeltas, csvChunks, ih draft acc h]
    | objectDelta o =>
      simp [goodCsvDeltas] at h
      obtain ⟨hok, hrest⟩ := h
      cases hv : jLookup o "csv" with
      | none =>
        simp [processSheetDeltas, csvChunks, hv, ih draft acc hrest]
      | some v =>
        by_cases ht : truthy v = true
        · have hstr : isStrVal v = true := by
            simp [csvFieldOk, hv, ht] at hok; exact hok
          cases v with
          | str s =>
            have hne : s ≠ "" := by
              intro hs; rw [hs] at ht; simp [truthy] at ht
            simp only [processSheetDeltas, hv, ht, if_true]
            rw [zodParse_csv_str s hne]
            simp only [jStrField, jLookup, beq_self_eq_true, if_true]
            rw [ih s (Event.sheetDelta s :: acc) hrest]
            have hch : csvChunks (ProviderDelta.objectDelta o :: rest) = s :: csvChunks rest := by
              simp [csvChunks, hv, hne]
            rw [hch, List.getLastD_cons]
            simp
          | num n => simp [isStrVal] at hstr
          | bool b => simp [isStrVal] at hstr
          | null => simp [isStrVal] at hstr
          | arr items => simp [isStrVal] at hstr
          | obj fields => simp [isStrVal] at hstr
        · have ht' : truthy v = false := by revert ht; cases truthy v <;> simp
          have hch : csvChunks (ProviderDelta.objectDelta o :: rest) = csvChunks rest := by
            cases v with
            | str s =>
              have : s = "" := by revert ht'; simp [truthy]
              simp [csvChunks, hv, this]
            | num n => simp [csvChunks, hv]
            | bool b => simp [csvChunks, hv]
            | null => simp [csvChunks, hv]
            | arr items => simp [truthy] at ht'
            | obj fields => simp [truthy] at ht'
          simp [processSheetDeltas, hv, ht', hch, ih draft acc hrest]

theorem goodCodeDeltas_map (chunks : List String) :
    goodCodeDeltas (chunks.map validCodeDelta) = true := by
  induction chunks with
  | nil => rfl
  | cons c rest ih =>
    simp [validCodeDelta, goodCodeDeltas, codeFieldOk, jLookup, isStrVal, ih]

theorem codeChunks_map (chunks : List String) (h : ∀ c ∈ chunks, c ≠ "") :
    codeChunks (chunks.map validCodeDelta) = chunks := by
  induction chunks with
  | nil => rfl
  | cons c rest ih =>
    have hc : c ≠ "" := h c (by simp)
    simp [validCodeDelta, codeChunks, jLookup, hc, ih fun x hx => h x (by simp [hx])]

theorem goodCsvDeltas_map (chunks : List String) :
    goodCsvDeltas (chunks.map validCsvDelta) = true := by
  induction chunks with
  | nil => rfl
  | cons c rest ih =>
    simp [validCsvDelta, goodCsvDeltas, csvFieldOk, jLookup, isStrVal, ih]

theorem csvChunks_map (chunks : List String) (h : ∀ c ∈ chunks, c ≠ "") :
    csvChunks (chunks.map validCsvDelta) = chunks := by
  induction chunks with
  | nil => rfl
  | cons c rest ih =>
    have hc : c ≠ "" := h c (by simp)
    simp [validCsvDelta, csvChunks, jLookup, hc, ih fun x hx => h x (by simp [hx])]

/-- C1 counterexample: the claim says an increment failing schema validation
is dropped and the handler still returns normally, yielding one event per
valid increment.  In the code, a truthy `code` value that fails validation
(here the number 1) makes the adapter `validate` (v4 `parse`) throw, so the
run terminates with an error instead of dropping the increment and emitting
the one valid event. -/
theorem C1_counterexample :
    (codeDocumentHandlerOnCreate
      [ProviderDelta.objectDelta [("code", JsonVal.num 1)], validCodeDelta "a"]).isOk = false := by
  simp +decide [codeDocumentHandlerOnCreate, processCodeDeltas, jLookup, truthy,
    validCodeDelta, codeAdapterSchema, AISDKZodV4Adapter.createStreamingToolSchema,
    codeStreamingSchemaV4, zodParse, zodParseShape, Except.map, Except.isOk, Except.toBool]

/-- C1 amended: an invalid object increment whose `code` field is absent or
falsy (empty string, 0, false, null — all of which fail the schema) is
dropped by the `if (code)` guard and the session continues: one such
increment followed by N valid chunks yields exactly the N content-delta
events and a normal return.  (A truthy invalid field instead throws, per the
counterexample.) -/
theorem C1_amended :
    ∀ (o : List (String × JsonVal)) (chunks : List String),
      (∀ v, jLookup o "code" = some v → truthy v = false) →
      (∀ c ∈ chunks, c ≠ "") →
      (∀ v, jLookup o "code" = some v →
          (zodParse codeStreamingSchemaV4 (.obj [("code", v)])).isOk = false) ∧
        codeDocumentHandlerOnCreate
            (ProviderDelta.objectDelta o :: chunks.map validCodeDelta) =
          .ok (chunks.map Event.codeDelta, chunks.getLastD "") := by
  intro o chunks hfalsy hne
  constructor
  · intro v hv
    have ht := hfalsy v hv
    cases v with
    | str s =>
      have : s = "" := by revert ht; simp [truthy]
      subst this
      simp +decide [codeStreamingSchemaV4, zodParse, zodParseShape, jLookup, strCheckOk,
        Except.map, Except.isOk, Except.toBool]
    | num n =>
      simp [codeStreamingSchemaV4, zodParse, zodParseShape, jLookup,
        Except.map, Except.isOk, Except.toBool]
    | bool b =>
      simp [codeStreamingSchemaV4, zodParse, zodParseShape, jLookup,
        Except.map, Except.isOk, Except.toBool]
    | null =>
      simp [codeStreamingSchemaV4, zodParse, zodParseShape, jLookup,
        Except.map, Except.isOk, Except.toBool]
    | arr items => simp [truthy] at ht
    | obj fields => simp [truthy] at ht
  · unfold codeDocumentHandlerOnCreate
    have hgo : processCodeDeltas (ProviderDelta.objectDelta o :: chunks.map validCodeDelta) "" [] =
        processCodeDeltas (chunks.map validCodeDelta) "" [] := by
      cases hv : jLookup o "code" with
      | none => simp [processCodeDeltas, hv]
      | some v => simp [processCodeDeltas, hv, hfalsy v hv]
    rw [hgo, processCodeDeltas_good _ "" [] (goodCodeDeltas_map chunks),
      codeChunks_map chunks hne]
    simp

/-- C1 witness: one increment whose code field is the (schema-invalid) empty
string, followed by two valid chunks, yields exactly the two chunk events and
a normal return. -/
theorem C1_witness :
    codeDocumentHandlerOnCreate
        (ProviderDelta.objectDelta [("code", JsonVal.str "")] ::
          (["x", "y"].map validCodeDelta)) =
      .ok ([Event.codeDelta "x", Event.codeDelta "y"], "y") :=
  (C1_amended [("code", JsonVal.str "")] ["x", "y"]
    (by intro v hv; simp [jLookup] at hv; subst hv; rfl)
    (by decide)).2

/-- C2 counterexample: for chunks "a" then "b", the code handler returns
"b" — the last chunk — not the concatenation "ab", because the loop assigns
`draftContent = validatedObject.code` rather than appending. -/
theorem C2_counterexample :
    codeDocumentHandlerOnCreate [validCodeDelta "a", validCodeDelta "b"] =
        .ok ([Event.codeDelta "a", Event.codeDelta "b"], "b") ∧
      ("b" : String) ≠ "a" ++ "b" := by
  constructor
  · have hg : goodCodeDeltas [validCodeDelta "a", validCodeDelta "b"] = true := by
      decide
    have h := processCodeDeltas_good [validCodeDelta "a", validCodeDelta "b"] "" [] hg
    have hch : codeChunks [validCodeDelta "a", validCodeDelta "b"] = ["a", "b"] := by
      decide
    rw [codeDocumentHandlerOnCreate, h, hch]
    rfl
  · decide

/-- C2 amended: for any sequence of nonempty validated code chunks the code
handler's `onCreateDocument` emits one `data-codeDelta` per chunk, in order,
and returns the LAST chunk as the content for persistence (each `streamObject`
partial object is a cumulative snapshot, so the last chunk is the full
document). -/
theorem C2_amended :
    ∀ chunks : List String, (∀ c ∈ chunks, c ≠ "") →
      codeDocumentHandlerOnCreate (chunks.map validCodeDelta) =
        .ok (chunks.map Event.codeDelta, chunks.getLastD "") := by
  intro chunks h
  rw [codeDocumentHandlerOnCreate,
    processCodeDeltas_good _ "" [] (goodCodeDeltas_map chunks),
    codeChunks_map chunks h]
  simp

/-- C2 witness: three chunks produce three events in order and the last chunk
as content. -/
theorem C2_witness :
    codeDocumentHandlerOnCreate (["p1", "p2", "p3"].map validCodeDelta) =
      .ok ([Event.codeDelta "p1", Event.codeDelta "p2", Event.codeDelta "p3"], "p3") :=
  C2_amended ["p1", "p2", "p3"] (by decide)

/-- C6 counterexample: the claim says no additional content-delta event is
emitted when a field is present but unchanged.  Feeding the sheet handler two
consecutive increments with the identical csv value "a" emits an event for
each of them (plus the final flush): there is no change detection in the
handler. -/
theorem C6_counterexample :
    sheetDocumentHandlerOnCreate [validCsvDelta "a", validCsvDelta "a"] =
      .ok ([Event.sheetDelta "a", Event.sheetDelta "a", Event.sheetDelta "a"], "a") := by
  have hg : goodCsvDeltas [validCsvDelta "a", validCsvDelta "a"] = true := by decide
  have hch : csvChunks [validCsvDelta "a", validCsvDelta "a"] = ["a", "a"] := by decide
  rw [sheetDocumentHandlerOnCreate,
    processSheetDeltas_good [validCsvDelta "a", validCsvDelta "a"] "" [] hg, hch]
  rfl

/-- C6 amended: the sheet handler writes a `data-sheetDelta` event for every
increment whose `csv` field is present and truthy, regardless of whether it
changed since the previous increment; suppression of unchanged values is not
performed by the handler (it relies on the upstream provider stream). -/
theorem C6_amended :
    ∀ deltas : List ProviderDelta, goodCsvDeltas deltas = true →
      sheetDocumentHandlerOnCreate deltas =
        .ok ((csvChunks deltas).map Event.sheetDelta ++
            [Event.sheetDelta ((csvChunks deltas).getLastD "")],
          (csvChunks deltas).getLastD "") := by
  intro deltas h
  rw [sheetDocumentHandlerOnCreate, processSheetDeltas_good deltas "" [] h]
  simp

/-- C6 witness: two increments carrying the same value each produce an
event. -/
theorem C6_witness :
    sheetDocumentHandlerOnCreate [validCsvDelta "r1", validCsvDelta "r1"] =
      .ok ([Event.sheetDelta "r1", Event.sheetDelta "r1", Event.sheetDelta "r1"], "r1") := by
  have hg : goodCsvDeltas [validCsvDelta "r1", validCsvDelta "r1"] = true := by decide
  have h := C6_amended [validCsvDelta "r1", validCsvDelta "r1"] hg
  have hch : csvChunks [validCsvDelta "r1", validCsvDelta "r1"] = ["r1", "r1"] := by decide
  rw [hch] at h
  exact h

/-- C9: the sheet handler's `onCreateDocument`, whenever it completes
normally, ends its event trace with one final `data-sheetDelta` whose data
equals the content it returns; in the zero-valid-increment edge case it
writes the empty string and returns the empty string. -/
theorem C9_final_sheet_event :
    (∀ (deltas : List ProviderDelta) (events : List Event) (content : String),
        sheetDocumentHandlerOnCreate deltas = .ok (events, content) →
        ∃ pre1, events = pre1 ++ [Event.sheetDelta content]) ∧
      sheetDocumentHandlerOnCreate [] = .ok ([Event.sheetDelta ""], "") := by
  constructor
  · intro deltas events content h
    rw [sheetDocumentHandlerOnCreate] at h
    cases h' : processSheetDeltas deltas "" [] with
    | error e => rw [h'] at h; cases h
    | ok p =>
      rw [h'] at h
      obtain ⟨evs, draft⟩ := p
      simp at h
      exact ⟨evs, by rw [← h.1, ← h.2]⟩
  · rw [sheetDocumentHandlerOnCreate]
    rfl

/-- C9 witness: instantiating the final-event property at the empty
stream. -/
theorem C9_witness :
    ∃ pre1, [Event.sheetDelta ""] = pre1 ++ [Event.sheetDelta ""] :=
  C9_final_sheet_event.1 [] [Event.sheetDelta ""] "" C9_final_sheet_event.2

/-- Unfolding: parsing an object value against an object schema parses the
shape. -/
theorem zodParse_obj (shape : List (String × Schema)) (fields : List (String × JsonVal)) :
    zodParse (.obj shape) (.obj fields) = (zodParseShape shape fields).map JsonVal.obj := by
  rw [zodParse.eq_def]

/-- Unfolding: parsing a string value against a string schema runs the
checks. -/
theorem zodParse_str_str (checks : List StrCheck) (s : String) :
    zodParse (.str checks) (.str s) =
      if checks.all (fun c => strCheckOk c s) then .ok (.str s)
      else .error "invalid string" := by
  rw [zodParse.eq_def]

/-- Unfolding: enum parse on a string value. -/
theorem zodParse_enum_str (values : List String) (s : String) :
    zodParse (.enumS values) (.str s) =
      if values.contains s then .ok (.str s) else .error "invalid enum value" := by
  rw [zodParse.eq_def]

/-- Unfolding: array parse on an array value. -/
theorem zodParse_arr (elem : Schema) (items : List JsonVal) :
    zodParse (.arrS elem) (.arr items) = (zodParseList elem items).map JsonVal.arr := by
  rw [zodParse.eq_def]

/-- Unfolding: union parse delegates to the option list. -/
theorem zodParse_union_def (options : List Schema) (v : JsonVal) :
    zodParse (.union options) v = zodParseUnion options v := by
  rw [zodParse.eq_def]

/-- Unfolding: the empty shape parses to the empty object. -/
theorem zodParseShape_nil (fields : List (String × JsonVal)) :
    zodParseShape [] fields = .ok [] := by
  rw [zodParseShape.eq_def]

/-- Unfolding: one step of shape parsing. -/
theorem zodParseShape_cons (k : String) (sc : Schema) (rest : List (String × Schema))
    (fields : List (String × JsonVal)) :
    zodParseShape ((k, sc) :: rest) fields =
      match jLookup fields k with
      | none =>
        if acceptsUndefined sc then zodParseShape rest fields
        else .error "required field missing"
      | some v =>
        match zodParse sc v with
        | .error e => .error e
        | .ok v2 =>
          match zodParseShape rest fields with
          | .error e => .error e
          | .ok out => .ok ((k, v2) :: out) := by
  rw [zodParseShape.eq_def]

/-- Unfolding: the empty element list parses to the empty array. -/
theorem zodParseList_nil (s : Schema) : zodParseList s [] = .ok [] := by
  rw [zodParseList.eq_def]

/-- Unfolding: one step of element-list parsing. -/
theorem zodParseList_cons (s : Schema) (v : JsonVal) (rest : List JsonVal) :
    zodParseList s (v :: rest) =
      match zodParse s v with
      | .error e => .error e
      | .ok v2 =>
        match zodParseList s rest with
        | .error e => .error e
        | .ok out => .ok (v2 :: out) := by
  rw [zodParseList.eq_def]

/-- Unfolding: the empty union rejects. -/
theorem zodParseUnion_nil (v : JsonVal) :
    zodParseUnion [] v = .error "no union option matched" := by
  rw [zodParseUnion.eq_def]

/-- Unfolding: one step of union parsing. -/
theorem zodParseUnion_cons (s : Schema) (rest : List Schema) (v : JsonVal) :
    zodParseUnion (s :: rest) v =
      match zodParse s v with
      | .ok v2 => .ok v2
      | .error _ => zodParseUnion rest v := by
  rw [zodParseUnion.eq_def]

/-- A string schema accepts a string passing all its checks. -/
theorem zodParse_str_ok (checks : List StrCheck) (s : String)
    (h : checks.all (fun c => strCheckOk c s) = true) :
    zodParse (.str checks) (.str s) = .ok (.str s) := by
  rw [zodParse_str_str, if_pos h]

/-- An enum schema accepts a member string. -/
theorem zodParse_enum_ok (values : List String) (s : String)
    (h : values.contains s = true) :
    zodParse (.enumS values) (.str s) = .ok (.str s) := by
  rw [zodParse_enum_str, if_pos h]

/-- Composing one successful shape-parsing step. -/
theorem zodParseShape_cons_ok (k : String) (sc : Schema) (rest : List (String × Schema))
    (fields : List (String × JsonVal)) (v v2 : JsonVal) (out : List (String × JsonVal))
    (h1 : jLookup fields k = some v) (h2 : zodParse sc v = .ok v2)
    (h3 : zodParseShape rest fields = .ok out) :
    zodParseShape ((k, sc) :: rest) fields = .ok ((k, v2) :: out) := by
  rw [zodParseShape_cons, h1]
  simp only [h2, h3]

/-- The createDocument tool schema accepts `{ title, kind }` for any nonempty
title and registered kind, returning the object unchanged. -/
theorem zodParse_createDoc (t k : String) (ht : t ≠ "")
    (hk : artifactKinds.contains k = true) :
    zodParse createDocumentSchemaV4 (.obj [("title", .str t), ("kind", .str k)]) =
      .ok (.obj [("title", .str t), ("kind", .str k)]) := by
  have h2 : zodParse (.str [.minLen 1]) (.str t) = .ok (.str t) :=
    zodParse_str_ok _ t (by simp [strCheckOk, one_le_length_of_ne t ht])
  have h3 : zodParse (.enumS artifactKinds) (.str k) = .ok (.str k) :=
    zodParse_enum_ok _ k hk
  have h4 : zodParseShape [("kind", .enumS artifactKinds)]
      [("title", .str t), ("kind", .str k)] = .ok [("kind", .str k)] :=
    zodParseShape_cons_ok "kind" _ _ _ (.str k) (.str k) [] rfl h3 (zodParseShape_nil _)
  have h5 : zodParseShape [("title", .str [.minLen 1]), ("kind", .enumS artifactKinds)]
      [("title", .str t), ("kind", .str k)] =
      .ok [("title", .str t), ("kind", .str k)] :=
    zodParseShape_cons_ok "title" _ _ _ (.str t) (.str t) [("kind", .str k)] rfl h2 h4
  rw [createDocumentSchemaV4, zodParse_obj, h5]
  rfl

/-- The updateDocument tool schema accepts `{ id, description }` for nonempty
strings, returning the object unchanged. -/
theorem zodParse_updateDoc (i d : String) (hi : i ≠ "") (hd : d ≠ "") :
    zodParse updateDocumentSchemaV4 (.obj [("id", .str i), ("description", .str d)]) =
      .ok (.obj [("id", .str i), ("description", .str d)]) := by
  have h2 : zodParse (.str [.minLen 1]) (.str i) = .ok (.str i) :=
    zodParse_str_ok _ i (by simp [strCheckOk, one_le_length_of_ne i hi])
  have h3 : zodParse (.str [.minLen 1]) (.str d) = .ok (.str d) :=
    zodParse_str_ok _ d (by simp [strCheckOk, one_le_length_of_ne d hd])
  have h4 : zodParseShape [("description", .str [.minLen 1])]
      [("id", .str i), ("description", .str d)] = .ok [("description", .str d)] :=
    zodParseShape_cons_ok "description" _ _ _ (.str d) (.str d) [] rfl h3
      (zodParseShape_nil _)
  have h5 : zodParseShape [("id", .str [.minLen 1]), ("description", .str [.minLen 1])]
      [("id", .str i), ("description", .str d)] =
      .ok [("id", .str i), ("description", .str d)] :=
    zodParseShape_cons_ok "id" _ _ _ (.str i) (.str i) [("description", .str d)] rfl h2 h4
  rw [updateDocumentSchemaV4, zodParse_obj, h5]
  rfl

/-- C7: in both the createDocument and updateDocument tools, the handler
lookup is `documentHandlersByArtifactKind.find?` by exact kind tag; when no
entry matches the (validated) kind the tool throws
"No document handler found for kind: ..." instead of returning a result, and
when an entry matches, exactly that handler (the first whose kind equals the
tag) is the one whose run appears in the event trace. -/
theorem C7_dispatch :
    ∀ (registry : List DocumentHandler) (params parsed : JsonVal) (id : String)
      (row : DocRow),
      (zodParse createDocumentSchemaV4 params = .ok parsed →
        (registry.find? (fun h => h.kind == jStrField parsed "kind") = none →
          (createDocumentExecute registry params id).2 =
            .error ("No document handler found for kind: " ++ jStrField parsed "kind")) ∧
        (∀ h, registry.find? (fun h2 => h2.kind == jStrField parsed "kind") = some h →
          h.kind = jStrField parsed "kind" ∧
          (createDocumentExecute registry params id).1 =
            [Event.kindEv (jStrField parsed "kind"), Event.idEv id,
              Event.titleEv (jStrField parsed "title"), Event.clearEv] ++
              h.onCreateDocument.1 ++
              (match h.onCreateDocument.2 with
                | .ok _ => [Event.finishEv]
                | .error _ => []))) ∧
      (zodParse updateDocumentSchemaV4 params = .ok parsed →
        (registry.find? (fun h => h.kind == row.kind) = none →
          (updateDocumentExecute registry params (some row)).2 =
            .error ("No document handler found for kind: " ++ row.kind)) ∧
        (∀ h, registry.find? (fun h2 => h2.kind == row.kind) = some h →
          h.kind = row.kind ∧
          (updateDocumentExecute registry params (some row)).1 =
            [Event.clearEv] ++ h.onUpdateDocument.1 ++
              (match h.onUpdateDocument.2 with
                | .ok _ => [Event.finishEv]
                | .error _ => []))) := by
  intro registry params parsed id row
  constructor
  · intro hparse
    have hval : (AISDKZodV4Adapter.createStreamingToolSchema createDocumentSchemaV4).validate params =
        .ok parsed := hparse
    constructor
    · intro hfind
      simp [createDocumentExecute, hval, hfind]
    · intro h hfind
      have hk : h.kind = jStrField parsed "kind" := by
        have := List.find?_some hfind
        simpa using this
      refine ⟨hk, ?_⟩
      cases hrun : h.onCreateDocument with
      | mk hEvents hres =>
        cases hres with
        | error e => simp [createDocumentExecute, hval, hfind, hrun]
        | ok u => simp [createDocumentExecute, hval, hfind, hrun]
  · intro hparse
    have hval : (AISDKZodV4Adapter.createStreamingToolSchema updateDocumentSchemaV4).validate params =
        .ok parsed := hparse
    constructor
    · intro hfind
      simp [updateDocumentExecute, hval, hfind]
    · intro h hfind
      have hk : h.kind = row.kind := by
        have := List.find?_some hfind
        simpa using this
      refine ⟨hk, ?_⟩
      cases hrun : h.onUpdateDocument with
      | mk hEvents hres =>
        cases hres with
        | error e => simp [updateDocumentExecute, hval, hfind, hrun]
        | ok u => simp [updateDocumentExecute, hval, hfind, hrun]

/-- C7 witness: a registry with only a "code" handler dispatches a "code"
create to it, and an update whose stored document kind is "sheet" throws. -/
theorem C7_witness :
    (createDocumentExecute
        [⟨"code", ([Event.codeDelta "x"], .ok ()), ([], .ok ())⟩]
        (JsonVal.obj [("title", JsonVal.str "T"), ("kind", JsonVal.str "code")])
        "doc-1").1 =
      [Event.kindEv "code", Event.idEv "doc-1", Event.titleEv "T", Event.clearEv,
        Event.codeDelta "x", Event.finishEv] ∧
    (updateDocumentExecute
        [⟨"code", ([Event.codeDelta "x"], .ok ()), ([], .ok ())⟩]
        (JsonVal.obj [("id", JsonVal.str "d1"), ("description", JsonVal.str "D")])
        (some ⟨"d1", "t", "sheet", "c"⟩)).2 =
      .error "No document handler found for kind: sheet" := by
  have h := C7_dispatch
    [⟨"code", ([Event.codeDelta "x"], .ok ()), ([], .ok ())⟩]
    (JsonVal.obj [("title", JsonVal.str "T"), ("kind", JsonVal.str "code")])
    (JsonVal.obj [("title", JsonVal.str "T"), ("kind", JsonVal.str "code")])
    "doc-1" ⟨"d1", "t", "sheet", "c"⟩
  have h2 := C7_dispatch
    [⟨"code", ([Event.codeDelta "x"], .ok ()), ([], .ok ())⟩]
    (JsonVal.obj [("id", JsonVal.str "d1"), ("description", JsonVal.str "D")])
    (JsonVal.obj [("id", JsonVal.str "d1"), ("description", JsonVal.str "D")])
    "doc-1" ⟨"d1", "t", "sheet", "c"⟩
  constructor
  · have hparse := zodParse_createDoc "T" "code" (by decide) (by decide)
    have hfind : [(⟨"code", ([Event.codeDelta "x"], .ok ()), ([], .ok ())⟩ : DocumentHandler)].find?
        (fun h2 => h2.kind == jStrField
          (JsonVal.obj [("title", JsonVal.str "T"), ("kind", JsonVal.str "code")]) "kind") =
        some ⟨"code", ([Event.codeDelta "x"], .ok ()), ([], .ok ())⟩ := rfl
    have := ((h.1 hparse).2 _ hfind).2
    rw [this]
    rfl
  · have hparse := zodParse_updateDoc "d1" "D" (by decide) (by decide)
    have hfind : [(⟨"code", ([Event.codeDelta "x"], .ok ()), ([], .ok ())⟩ : DocumentHandler)].find?
        (fun h2 => h2.kind == (⟨"d1", "t", "sheet", "c"⟩ : DocRow).kind) = none := rfl
    exact (h2.2 hparse).1 hfind

/-- C8: on a validated params object with a matched handler that returns
normally, createDocument's execute writes data-kind, data-id, data-title,
data-clear in exactly that order before the handler's events, writes
data-finish exactly once after the handler returns, and writes no content
delta before data-clear (the first four events are not content deltas). -/
theorem C8_create_event_order :
    ∀ (registry : List DocumentHandler) (params parsed : JsonVal) (id : String)
      (h : DocumentHandler),
      zodParse createDocumentSchemaV4 params = .ok parsed →
      registry.find? (fun x => x.kind == jStrField parsed "kind") = some h →
      h.onCreateDocument.2 = .ok () →
      Event.finishEv ∉ h.onCreateDocument.1 →
      (createDocumentExecute registry params id).1 =
        [Event.kindEv (jStrField parsed "kind"), Event.idEv id,
          Event.titleEv (jStrField parsed "title"), Event.clearEv] ++
          h.onCreateDocument.1 ++ [Event.finishEv] ∧
      (createDocumentExecute registry params id).1.count Event.finishEv = 1 ∧
      ∀ e ∈ (createDocumentExecute registry params id).1.take 4,
        Event.isContentDelta e = false := by
  intro registry params parsed id h hparse hfind hok hmem
  have hval : (AISDKZodV4Adapter.createStreamingToolSchema createDocumentSchemaV4).validate params =
      .ok parsed := hparse
  have hevents : (createDocumentExecute registry params id).1 =
      [Event.kindEv (jStrField parsed "kind"), Event.idEv id,
        Event.titleEv (jStrField parsed "title"), Event.clearEv] ++
        h.onCreateDocument.1 ++ [Event.finishEv] := by
    cases hrun : h.onCreateDocument with
    | mk hEvents hres =>
      rw [hrun] at hok
      simp at hok
      subst hok
      simp [createDocumentExecute, hval, hfind, hrun]
  refine ⟨hevents, ?_, ?_⟩
  · rw [hevents]
    simp [List.count_append, List.count_cons, List.count_eq_zero.mpr hmem]
  · rw [hevents]
    intro e he
    simp [List.take] at he
    rcases he with h1 | h1 | h1 | h1 <;> subst h1 <;> rfl

/-- C8 witness: the event order and single data-finish at a concrete
registry, params and id. -/
theorem C8_witness :
    (createDocumentExecute
        [⟨"sheet", ([Event.sheetDelta "r"], .ok ()), ([], .ok ())⟩]
        (JsonVal.obj [("title", JsonVal.str "S"), ("kind", JsonVal.str "sheet")])
        "doc-2").1 =
      [Event.kindEv "sheet", Event.idEv "doc-2", Event.titleEv "S", Event.clearEv] ++
        [Event.sheetDelta "r"] ++ [Event.finishEv] ∧
    (createDocumentExecute
        [⟨"sheet", ([Event.sheetDelta "r"], .ok ()), ([], .ok ())⟩]
        (JsonVal.obj [("title", JsonVal.str "S"), ("kind", JsonVal.str "sheet")])
        "doc-2").1.count Event.finishEv = 1 := by
  have hparse := zodParse_createDoc "S" "sheet" (by decide) (by decide)
  have hfind : [(⟨"sheet", ([Event.sheetDelta "r"], .ok ()), ([], .ok ())⟩ : DocumentHandler)].find?
      (fun x => x.kind == jStrField
        (JsonVal.obj [("title", JsonVal.str "S"), ("kind", JsonVal.str "sheet")]) "kind") =
      some ⟨"sheet", ([Event.sheetDelta "r"], .ok ()), ([], .ok ())⟩ := rfl
  have h := C8_create_event_order
    [⟨"sheet", ([Event.sheetDelta "r"], .ok ()), ([], .ok ())⟩]
    (JsonVal.obj [("title", JsonVal.str "S"), ("kind", JsonVal.str "sheet")])
    (JsonVal.obj [("title", JsonVal.str "S"), ("kind", JsonVal.str "sheet")])
    "doc-2"
    ⟨"sheet", ([Event.sheetDelta "r"], .ok ()), ([], .ok ())⟩
    hparse hfind rfl (by decide)
  exact ⟨h.1, h.2.1⟩

/-- Unfolding: `z.any()` accepts every value. -/
theorem zodParse_any (v : JsonVal) : zodParse .anyS v = .ok v := by
  rw [zodParse.eq_def]

/-- Unfolding: the conversion fallback for `ZodNumber`. -/
theorem convert_num : createEquivalentV3Schema Schema.num = Schema.anyS := by
  rw [createEquivalentV3Schema.eq_def]

/-- Unfolding: the conversion fallback for a node without `_def`/`typeName`. -/
theorem convert_noDef : createEquivalentV3Schema Schema.noDef = Schema.anyS := by
  rw [createEquivalentV3Schema.eq_def]

/-- Unfolding: the conversion of any object schema is the empty shape —
`Object.entries` of the 3.25.x `_def.shape` thunk yields no entries. -/
theorem convert_obj (shape : List (String × Schema)) :
    createEquivalentV3Schema (.obj shape) = .obj [] := by
  rw [createEquivalentV3Schema.eq_def]

/-- A declared field that is absent and whose schema does not accept
`undefined` fails the shape parse. -/
theorem zodParseShape_cons_missing (k : String) (sc : Schema)
    (rest : List (String × Schema)) (fields : List (String × JsonVal))
    (h1 : jLookup fields k = none) (h2 : acceptsUndefined sc = false) :
    zodParseShape ((k, sc) :: rest) fields = .error "required field missing" := by
  rw [zodParseShape_cons, h1]
  simp [h2]

/-- The empty object schema `zv3.object({})` (strip mode) accepts exactly the
objects. -/
theorem accepts_emptyObj (v : JsonVal) :
    accepts (.obj []) v = isObjVal v := by
  cases v with
  | obj fields =>
    show (zodParse (.obj []) (.obj fields)).isOk = true
    rw [zodParse_obj, zodParseShape_nil]
    rfl
  | str s => show (zodParse _ _).isOk = _; rw [zodParse.eq_def]; rfl
  | num n => show (zodParse _ _).isOk = _; rw [zodParse.eq_def]; rfl
  | bool b => show (zodParse _ _).isOk = _; rw [zodParse.eq_def]; rfl
  | null => show (zodParse _ _).isOk = _; rw [zodParse.eq_def]; rfl
  | arr items => show (zodParse _ _).isOk = _; rw [zodParse.eq_def]; rfl

/-- C3 counterexample: the claim asserts accept-set equivalence on the whole
recognized fragment, which includes object schemas.  For the fragment schema
`z.object({ code: z.string().min(1) })` the conversion yields `zv3.object({})`
(the `_def.shape` thunk defeats `Object.entries`), which accepts the empty
object `{}`, while the original schema rejects it (its required `code` field
is missing) — so converted and original do not accept the same values. -/
theorem C3_counterexample :
    inFragment (Schema.obj [("code", Schema.str [StrCheck.minLen 1])]) = true ∧
      accepts (createEquivalentV3Schema
          (Schema.obj [("code", Schema.str [StrCheck.minLen 1])]))
        (JsonVal.obj []) = true ∧
      accepts (Schema.obj [("code", Schema.str [StrCheck.minLen 1])])
        (JsonVal.obj []) = false := by
  refine ⟨?_, ?_, ?_⟩
  · simp only [inFragment.eq_def, shapeInFragment.eq_def]
    rfl
  · rw [convert_obj, accepts_emptyObj]
    rfl
  · show (zodParse _ _).isOk = false
    rw [zodParse_obj,
      zodParseShape_cons_missing "code" _ [] [] rfl (by rw [acceptsUndefined.eq_def])]
    rfl

/-- C3 amended: the accept-set equivalence between a recognized-fragment
schema and its `createEquivalentV3Schema` conversion holds exactly on the
object-free part of the fragment (strings with the five checks, enums,
arrays, unions, optionals, literals, with no object node inside), where the
conversion is the structural identity; every object schema instead converts
to the empty shape `zv3.object({})`, which accepts every object whatever the
declared fields were. -/
theorem C3_amended :
    (∀ s : Schema, inFragment s = true → objectFree s = true →
      ∀ v : JsonVal, accepts (createEquivalentV3Schema s) v = accepts s v) ∧
      ∀ (shape : List (String × Schema)),
        createEquivalentV3Schema (.obj shape) = .obj [] ∧
        ∀ v : JsonVal,
          accepts (createEquivalentV3Schema (.obj shape)) v = isObjVal v := by
  constructor
  · intro s h ho v
    rw [convert_objFree_id s h ho]
  · intro shape
    refine ⟨convert_obj shape, ?_⟩
    intro v
    rw [convert_obj, accepts_emptyObj]

/-- C3 witness: a concrete object-free fragment schema (a string with a
min-length check) converts to an equivalent schema, checked on a sample
value; and a concrete object schema converts to the empty shape, which
accepts the empty object. -/
theorem C3_witness :
    (accepts (createEquivalentV3Schema (Schema.str [StrCheck.minLen 1]))
        (JsonVal.str "hi") =
      accepts (Schema.str [StrCheck.minLen 1]) (JsonVal.str "hi")) ∧
      accepts (createEquivalentV3Schema
          (Schema.obj [("csv", Schema.str [StrCheck.minLen 1])]))
        (JsonVal.obj []) = isObjVal (JsonVal.obj []) := by
  have h1 : inFragment (Schema.str [StrCheck.minLen 1]) = true := by
    rw [inFragment.eq_def]
  have h2 : objectFree (Schema.str [StrCheck.minLen 1]) = true := by
    rw [objectFree.eq_def]
  exact ⟨C3_amended.1 (Schema.str [StrCheck.minLen 1]) h1 h2 (JsonVal.str "hi"),
    (C3_amended.2 [("csv", Schema.str [StrCheck.minLen 1])]).2 (JsonVal.obj [])⟩

/-- C4: the wrapper returned by `createStreamingToolSchema` has `validate`
behave exactly as the new library's `parse` on the original v4 schema —
returning the v4-parsed value on success and the v4 error otherwise — and the
acceptance decision never consults the converted `aiSdkSchema`: for the
(unrecognized) number schema the converted schema accepts the string "w"
while `validate` rejects it. -/
theorem C4_validate_runs_v4 :
    (∀ (s : Schema) (p : JsonVal),
        (AISDKZodV4Adapter.createStreamingToolSchema s).validate p = zodParse s p ∧
          ((AISDKZodV4Adapter.createStreamingToolSchema s).validate p).isOk = accepts s p) ∧
      accepts (AISDKZodV4Adapter.createStreamingToolSchema Schema.num).aiSdkSchema
          (JsonVal.str "w") = true ∧
      accepts Schema.num (JsonVal.str "w") = false ∧
      ((AISDKZodV4Adapter.createStreamingToolSchema Schema.num).validate
          (JsonVal.str "w")).isOk = false := by
  refine ⟨fun s p => ⟨rfl, rfl⟩, ?_, ?_, ?_⟩
  · show accepts (createEquivalentV3Schema Schema.num) (JsonVal.str "w") = true
    rw [convert_num]
    show (zodParse Schema.anyS (JsonVal.str "w")).isOk = true
    rw [zodParse_any]
    rfl
  · show (zodParse Schema.num (JsonVal.str "w")).isOk = false
    rw [zodParse.eq_def]
    rfl
  · show (zodParse Schema.num (JsonVal.str "w")).isOk = false
    rw [zodParse.eq_def]
    rfl

/-- C5: `createEquivalentV3Schema` is total and degrades permissively: an
unrecognized `typeName` (e.g. `ZodNumber`, `ZodAny`) converts to `zv3.any()`
with one non-fatal `console.warn` diagnostic, a node lacking a
`_def`/`typeName` converts to `zv3.any()` silently, and the accept-anything
result accepts every value, so conversion never throws. -/
theorem C5_total_permissive_fallback :
    createEquivalentV3Schema Schema.num = Schema.anyS ∧
      conversionWarnings Schema.num =
        ["Unknown Zod v4 schema type: ZodNumber. Using generic schema."] ∧
      createEquivalentV3Schema Schema.anyS = Schema.anyS ∧
      conversionWarnings Schema.anyS =
        ["Unknown Zod v4 schema type: ZodAny. Using generic schema."] ∧
      createEquivalentV3Schema Schema.noDef = Schema.anyS ∧
      conversionWarnings Schema.noDef = [] ∧
      ∀ v : JsonVal, accepts Schema.anyS v = true := by
  refine ⟨convert_num, ?_, ?_, ?_, convert_noDef, ?_, ?_⟩
  · rw [conversionWarnings.eq_def]
  · rw [createEquivalentV3Schema.eq_def]
  · rw [conversionWarnings.eq_def]
  · rw [conversionWarnings.eq_def]
  · intro v
    show (zodParse Schema.anyS v).isOk = true
    rw [zodParse_any]
    rfl

/-- Inversion: an object schema only accepts objects, and then every declared
field parses. -/
theorem zodParse_obj_inv (shape : List (String × Schema)) (v : JsonVal)
    (h : (zodParse (.obj shape) v).isOk = true) :
    ∃ fields, v = .obj fields ∧ (zodParseShape shape fields).isOk = true := by
  cases v with
  | obj fields =>
    refine ⟨fields, rfl, ?_⟩
    rw [zodParse_obj] at h
    cases hs : zodParseShape shape fields with
    | error e => rw [hs] at h; simp [Except.map, Except.isOk, Except.toBool] at h
    | ok out => rfl
  | str s => rw [zodParse.eq_def] at h; simp [Except.isOk, Except.toBool] at h
  | num n => rw [zodParse.eq_def] at h; simp [Except.isOk, Except.toBool] at h
  | bool b => rw [zodParse.eq_def] at h; simp [Except.isOk, Except.toBool] at h
  | null => rw [zodParse.eq_def] at h; simp [Except.isOk, Except.toBool] at h
  | arr items => rw [zodParse.eq_def] at h; simp [Except.isOk, Except.toBool] at h

/-- Inversion: one step of a successful shape parse. -/
theorem zodParseShape_cons_inv (k : String) (sc : Schema)
    (rest : List (String × Schema)) (fields : List (String × JsonVal))
    (h : (zodParseShape ((k, sc) :: rest) fields).isOk = true) :
    ((∃ v, jLookup fields k = some v ∧ (zodParse sc v).isOk = true) ∨
        (jLookup fields k = none ∧ acceptsUndefined sc = true)) ∧
      (zodParseShape rest fields).isOk = true := by
  rw [zodParseShape_cons] at h
  cases hv : jLookup fields k with
  | none =>
    rw [hv] at h
    by_cases ha : acceptsUndefined sc = true
    · rw [if_pos ha] at h
      exact ⟨Or.inr ⟨rfl, ha⟩, h⟩
    · rw [if_neg ha] at h
      simp [Except.isOk, Except.toBool] at h
  | some v =>
    rw [hv] at h
    have h2 : (match zodParse sc v with
        | Except.error e => (Except.error e : Except String (List (String × JsonVal)))
        | Except.ok v2 =>
          match zodParseShape rest fields with
          | Except.error e => Except.error e
          | Except.ok out => Except.ok ((k, v2) :: out)).isOk = true := h
    cases hz : zodParse sc v with
    | error e =>
      rw [hz] at h2
      simp [Except.isOk, Except.toBool] at h2
    | ok v2 =>
      rw [hz] at h2
      cases hr : zodParseShape rest fields with
      | error e =>
        rw [hr] at h2
        simp [Except.isOk, Except.toBool] at h2
      | ok out =>
        exact ⟨Or.inl ⟨v, rfl, by simp [hz, Except.isOk, Except.toBool]⟩,
          by simp [hr, Except.isOk, Except.toBool]⟩

/-- Inversion: a string schema only accepts strings passing all checks. -/
theorem zodParse_str_inv (checks : List StrCheck) (v : JsonVal)
    (h : (zodParse (.str checks) v).isOk = true) :
    ∃ s, v = .str s ∧ checks.all (fun c => strCheckOk c s) = true := by
  cases v with
  | str s =>
    refine ⟨s, rfl, ?_⟩
    rw [zodParse_str_str] at h
    by_cases hc : checks.all (fun c => strCheckOk c s) = true
    · exact hc
    · rw [if_neg hc] at h; simp [Except.isOk, Except.toBool] at h
  | num n => rw [zodParse.eq_def] at h; simp [Except.isOk, Except.toBool] at h
  | bool b => rw [zodParse.eq_def] at h; simp [Except.isOk, Except.toBool] at h
  | null => rw [zodParse.eq_def] at h; simp [Except.isOk, Except.toBool] at h
  | arr items => rw [zodParse.eq_def] at h; simp [Except.isOk, Except.toBool] at h
  | obj fields => rw [zodParse.eq_def] at h; simp [Except.isOk, Except.toBool] at h

/-- Inversion: an enum schema only accepts member strings. -/
theorem zodParse_enum_inv (values : List String) (v : JsonVal)
    (h : (zodParse (.enumS values) v).isOk = true) :
    ∃ s, v = .str s ∧ values.contains s = true := by
  cases v with
  | str s =>
    refine ⟨s, rfl, ?_⟩
    rw [zodParse_enum_str] at h
    by_cases hc : values.contains s = true
    · exact hc
    · rw [if_neg hc] at h; simp [Except.isOk, Except.toBool] at h
  | num n => rw [zodParse.eq_def] at h; simp [Except.isOk, Except.toBool] at h
  | bool b => rw [zodParse.eq_def] at h; simp [Except.isOk, Except.toBool] at h
  | null => rw [zodParse.eq_def] at h; simp [Except.isOk, Except.toBool] at h
  | arr items => rw [zodParse.eq_def] at h; simp [Except.isOk, Except.toBool] at h
  | obj fields => rw [zodParse.eq_def] at h; simp [Except.isOk, Except.toBool] at h

/-- Inversion: a successful element-list parse means every element parses. -/
theorem zodParseList_inv (s : Schema) (items : List JsonVal)
    (h : (zodParseList s items).isOk = true) :
    ∀ x ∈ items, (zodParse s x).isOk = true := by
  induction items with
  | nil => intro x hx; cases hx
  | cons v rest ih =>
    intro x hx
    rw [zodParseList_cons] at h
    cases hz : zodParse s v with
    | error e => rw [hz] at h; simp [Except.isOk, Except.toBool] at h
    | ok v2 =>
      rw [hz] at h
      cases hr : zodParseList s rest with
      | error e => rw [hr] at h; simp [Except.isOk, Except.toBool] at h
      | ok out =>
        rcases List.mem_cons.mp hx with hx | hx
        · subst hx; rw [hz]; rfl
        · exact ih (by rw [hr]; rfl) x hx

/-- Inversion: an array schema only accepts arrays of accepted elements. -/
theorem zodParse_arr_inv (elem : Schema) (v : JsonVal)
    (h : (zodParse (.arrS elem) v).isOk = true) :
    ∃ items, v = .arr items ∧ ∀ x ∈ items, (zodParse elem x).isOk = true := by
  cases v with
  | arr items =>
    refine ⟨items, rfl, ?_⟩
    rw [zodParse_arr] at h
    cases hl : zodParseList elem items with
    | error e => rw [hl] at h; simp [Except.map, Except.isOk, Except.toBool] at h
    | ok out => exact zodParseList_inv elem items (by rw [hl]; rfl)
  | str s => rw [zodParse.eq_def] at h; simp [Except.isOk, Except.toBool] at h
  | num n => rw [zodParse.eq_def] at h; simp [Except.isOk, Except.toBool] at h
  | bool b => rw [zodParse.eq_def] at h; simp [Except.isOk, Except.toBool] at h
  | null => rw [zodParse.eq_def] at h; simp [Except.isOk, Except.toBool] at h
  | obj fields => rw [zodParse.eq_def] at h; simp [Except.isOk, Except.toBool] at h

/-- Inversion: a successful union parse means some option accepts. -/
theorem zodParseUnion_inv (options : List Schema) (v : JsonVal)
    (h : (zodParseUnion options v).isOk = true) :
    ∃ o ∈ options, (zodParse o v).isOk = true := by
  induction options with
  | nil => rw [zodParseUnion_nil] at h; simp [Except.isOk, Except.toBool] at h
  | cons s rest ih =>
    rw [zodParseUnion_cons] at h
    cases hz : zodParse s v with
    | ok v2 => exact ⟨s, by simp, by rw [hz]; rfl⟩
    | error e =>
      rw [hz] at h
      obtain ⟨o, ho, hok⟩ := ih h
      exact ⟨o, by simp [ho], hok⟩

/-- Strings are required fields (never accept `undefined`). -/
theorem acceptsUndefined_str (checks : List StrCheck) :
    acceptsUndefined (.str checks) = false := by
  rw [acceptsUndefined.eq_def]

/-- Enums are required fields. -/
theorem acceptsUndefined_enum (values : List String) :
    acceptsUndefined (.enumS values) = false := by
  rw [acceptsUndefined.eq_def]

/-- Objects are required fields. -/
theorem acceptsUndefined_obj (shape : List (String × Schema)) :
    acceptsUndefined (.obj shape) = false := by
  rw [acceptsUndefined.eq_def]

/-- Arrays are required fields. -/
theorem acceptsUndefined_arr (elem : Schema) :
    acceptsUndefined (.arrS elem) = false := by
  rw [acceptsUndefined.eq_def]

/-- A required (non-optional) declared field must be present and accepted. -/
theorem zodParseShape_required (k : String) (sc : Schema)
    (rest : List (String × Schema)) (fields : List (String × JsonVal))
    (hreq : acceptsUndefined sc = false)
    (h : (zodParseShape ((k, sc) :: rest) fields).isOk = true) :
    (∃ v, jLookup fields k = some v ∧ (zodParse sc v).isOk = true) ∧
      (zodParseShape rest fields).isOk = true := by
  obtain ⟨h1, h2⟩ := zodParseShape_cons_inv k sc rest fields h
  rcases h1 with h1 | ⟨_, ha⟩
  · exact ⟨h1, h2⟩
  · rw [hreq] at ha; cases ha

/-- Part analysis: a value accepted by `partSchema` satisfies the text-part
constraints when its type tag is `"text"` and the file-part constraints when
it is `"file"`. -/
theorem partSchema_inv (p : JsonVal) (h : (zodParse partSchema p).isOk = true) :
    (jGet p "type" = some (.str "text") →
      ∃ t, jGet p "text" = some (.str t) ∧ 1 ≤ t.length ∧ t.length ≤ 2000) ∧
    (jGet p "type" = some (.str "file") →
      (jGet p "mediaType" = some (.str "image/jpeg") ∨
        jGet p "mediaType" = some (.str "image/png")) ∧
      (∃ n, jGet p "name" = some (.str n) ∧ 1 ≤ n.length ∧ n.length ≤ 100) ∧
      (∃ u, jGet p "url" = some (.str u) ∧ isUrlStr u = true)) := by
  rw [partSchema, zodParse_union_def] at h
  obtain ⟨o, ho, hok⟩ := zodParseUnion_inv _ _ h
  simp only [List.mem_cons, List.not_mem_nil, or_false] at ho
  rcases ho with ho | ho
  · -- text part
    subst ho
    rw [textPartSchema] at hok
    obtain ⟨pf, rfl, hsh⟩ := zodParse_obj_inv _ _ hok
    obtain ⟨⟨tv, htv, htok⟩, hsh2⟩ :=
      zodParseShape_required _ _ _ _ (acceptsUndefined_enum _) hsh
    obtain ⟨⟨xv, hxv, hxok⟩, _⟩ :=
      zodParseShape_required _ _ _ _ (acceptsUndefined_str _) hsh2
    obtain ⟨ts, rfl, hts⟩ := zodParse_enum_inv _ _ htok
    have hts2 : ts = "text" := by
      simpa using hts
    subst hts2
    obtain ⟨t, rfl, htc⟩ := zodParse_str_inv _ _ hxok
    have hlen : 1 ≤ t.length ∧ t.length ≤ 2000 := by
      simpa [strCheckOk] using htc
    constructor
    · intro _
      exact ⟨t, by simpa [jGet] using hxv, hlen⟩
    · intro hfile
      rw [show jGet (JsonVal.obj pf) "type" = jLookup pf "type" from rfl, htv] at hfile
      simp at hfile
  · -- file part
    subst ho
    rw [filePartSchema] at hok
    obtain ⟨pf, rfl, hsh⟩ := zodParse_obj_inv _ _ hok
    obtain ⟨⟨tv, htv, htok⟩, hsh2⟩ :=
      zodParseShape_required _ _ _ _ (acceptsUndefined_enum _) hsh
    obtain ⟨⟨mv, hmv, hmok⟩, hsh3⟩ :=
      zodParseShape_required _ _ _ _ (acceptsUndefined_enum _) hsh2
    obtain ⟨⟨nv, hnv, hnok⟩, hsh4⟩ :=
      zodParseShape_required _ _ _ _ (acceptsUndefined_str _) hsh3
    obtain ⟨⟨uv, huv, huok⟩, _⟩ :=
      zodParseShape_required _ _ _ _ (acceptsUndefined_str _) hsh4
    obtain ⟨ts, rfl, hts⟩ := zodParse_enum_inv _ _ htok
    have hts2 : ts = "file" := by simpa using hts
    subst hts2
    obtain ⟨ms, rfl, hms⟩ := zodParse_enum_inv _ _ hmok
    have hms2 : ms = "image/jpeg" ∨ ms = "image/png" := by
      simpa using hms
    obtain ⟨n, rfl, hnc⟩ := zodParse_str_inv _ _ hnok
    have hnlen : 1 ≤ n.length ∧ n.length ≤ 100 := by
      simpa [strCheckOk] using hnc
    obtain ⟨u, rfl, huc⟩ := zodParse_str_inv _ _ huok
    have hurl : isUrlStr u = true := by
      simpa [strCheckOk] using huc
    constructor
    · intro htext
      rw [show jGet (JsonVal.obj pf) "type" = jLookup pf "type" from rfl, htv] at htext
      simp at htext
    · intro _
      refine ⟨?_, ⟨n, by simpa [jGet] using hnv, hnlen⟩,
        ⟨u, by simpa [jGet] using huv, hurl⟩⟩
      rcases hms2 with hm | hm <;> subst hm
      · exact Or.inl (by simpa [jGet] using hmv)
      · exact Or.inr (by simpa [jGet] using hmv)

/-- C10: every body accepted by `postRequestBodySchema` has a UUID top-level
id, a message with UUID id and role "user", and parts where each text part
carries 1..2000 characters and each file part has mediaType image/jpeg or
image/png, a 1..100-character name and a valid URL.  (Contrapositively, a
body violating any of these is rejected.) -/
theorem C10_post_request_constraints :
    ∀ v : JsonVal, accepts postRequestBodySchema v = true →
      (∃ s, jGet v "id" = some (.str s) ∧ isUuidStr s = true) ∧
      (∃ m, jGet v "message" = some m ∧
        (∃ s, jGet m "id" = some (.str s) ∧ isUuidStr s = true) ∧
        jGet m "role" = some (.str "user") ∧
        (∃ parts, jGet m "parts" = some (.arr parts) ∧
          ∀ p ∈ parts,
            (jGet p "type" = some (.str "text") →
              ∃ t, jGet p "text" = some (.str t) ∧ 1 ≤ t.length ∧ t.length ≤ 2000) ∧
            (jGet p "type" = some (.str "file") →
              (jGet p "mediaType" = some (.str "image/jpeg") ∨
                jGet p "mediaType" = some (.str "image/png")) ∧
              (∃ n, jGet p "name" = some (.str n) ∧ 1 ≤ n.length ∧ n.length ≤ 100) ∧
              (∃ u, jGet p "url" = some (.str u) ∧ isUrlStr u = true)))) := by
  intro v hacc
  have h : (zodParse postRequestBodySchema v).isOk = true := hacc
  rw [postRequestBodySchema] at h
  obtain ⟨fields, rfl, hsh⟩ := zodParse_obj_inv _ _ h
  obtain ⟨⟨idv, hidv, hidok⟩, hsh2⟩ :=
    zodParseShape_required _ _ _ _ (acceptsUndefined_str _) hsh
  obtain ⟨⟨mv, hmv, hmok⟩, _⟩ :=
    zodParseShape_required _ _ _ _ (acceptsUndefined_obj _) hsh2
  obtain ⟨ids, rfl, hidc⟩ := zodParse_str_inv _ _ hidok
  have hiduuid : isUuidStr ids = true := by simpa [strCheckOk] using hidc
  refine ⟨⟨ids, by simpa [jGet] using hidv, hiduuid⟩, ?_⟩
  obtain ⟨mf, rfl, hmsh⟩ := zodParse_obj_inv _ _ hmok
  obtain ⟨⟨midv, hmidv, hmidok⟩, hmsh2⟩ :=
    zodParseShape_required _ _ _ _ (acceptsUndefined_str _) hmsh
  obtain ⟨⟨rolev, hrolev, hroleok⟩, hmsh3⟩ :=
    zodParseShape_required _ _ _ _ (acceptsUndefined_enum _) hmsh2
  obtain ⟨⟨partsv, hpartsv, hpartsok⟩, _⟩ :=
    zodParseShape_required _ _ _ _ (acceptsUndefined_arr _) hmsh3
  obtain ⟨mids, rfl, hmidc⟩ := zodParse_str_inv _ _ hmidok
  have hmiduuid : isUuidStr mids = true := by simpa [strCheckOk] using hmidc
  obtain ⟨roles, rfl, hrolec⟩ := zodParse_enum_inv _ _ hroleok
  have hrole : roles = "user" := by simpa using hrolec
  subst hrole
  obtain ⟨parts, rfl, hparts⟩ := zodParse_arr_inv _ _ hpartsok
  refine ⟨.obj mf, by simpa [jGet] using hmv,
    ⟨mids, by simpa [jGet] using hmidv, hmiduuid⟩,
    by simpa [jGet] using hrolev,
    ⟨parts, by simpa [jGet] using hpartsv, ?_⟩⟩
  intro p hp
  exact partSchema_inv p (hparts p hp)

/-- An enum schema rejects a non-member string. -/
theorem zodParse_enum_err (values : List String) (s : String)
    (h : values.contains s = false) :
    zodParse (.enumS values) (.str s) = .error "invalid enum value" := by
  have hm : s ∉ values := by
    intro hmem
    rw [show values.contains s = List.elem s values from rfl,
      List.elem_eq_true_of_mem hmem] at h
    cases h
  simp [zodParse_enum_str, hm]

/-- Shape parsing propagates a field error. -/
theorem zodParseShape_cons_err (k : String) (sc : Schema)
    (rest : List (String × Schema)) (fields : List (String × JsonVal))
    (v : JsonVal) (e : String)
    (h1 : jLookup fields k = some v) (h2 : zodParse sc v = .error e) :
    zodParseShape ((k, sc) :: rest) fields = .error e := by
  rw [zodParseShape_cons, h1]
  simp only [h2]

/-- An object parse succeeds from a successful shape parse. -/
theorem zodParse_obj_ok (shape : List (String × Schema))
    (fields out : List (String × JsonVal))
    (h : zodParseShape shape fields = .ok out) :
    zodParse (.obj shape) (.obj fields) = .ok (.obj out) := by
  rw [zodParse_obj, h]
  rfl

/-- An object parse fails from a failed shape parse. -/
theorem zodParse_obj_err (shape : List (String × Schema))
    (fields : List (String × JsonVal)) (e : String)
    (h : zodParseShape shape fields = .error e) :
    zodParse (.obj shape) (.obj fields) = .error e := by
  rw [zodParse_obj, h]
  rfl

/-- Element-list parsing composes successes. -/
theorem zodParseList_cons_ok (s : Schema) (v v2 : JsonVal) (rest out : List JsonVal)
    (h1 : zodParse s v = .ok v2) (h2 : zodParseList s rest = .ok out) :
    zodParseList s (v :: rest) = .ok (v2 :: out) := by
  rw [zodParseList_cons, h1]
  simp only [h2]

/-- A union succeeds on its first succeeding option. -/
theorem zodParseUnion_cons_ok (s : Schema) (rest : List Schema) (v v2 : JsonVal)
    (h : zodParse s v = .ok v2) :
    zodParseUnion (s :: rest) v = .ok v2 := by
  rw [zodParseUnion_cons, h]

/-- A union skips a failing option. -/
theorem zodParseUnion_cons_err (s : Schema) (rest : List Schema) (v : JsonVal)
    (e : String) (h : zodParse s v = .error e) :
    zodParseUnion (s :: rest) v = zodParseUnion rest v := by
  rw [zodParseUnion_cons, h]

/-- An array parse succeeds from a successful element-list parse. -/
theorem zodParse_arr_ok (elem : Schema) (items out : List JsonVal)
    (h : zodParseList elem items = .ok out) :
    zodParse (.arrS elem) (.arr items) = .ok (.arr out) := by
  rw [zodParse_arr, h]
  rfl

/-- The sample body parses successfully (to itself: it carries exactly the
declared keys in declaration order). -/
theorem samplePostBody_parses :
    zodParse postRequestBodySchema samplePostBody = .ok samplePostBody := by
  have htext : zodParse textPartSchema sampleTextPart = .ok sampleTextPart := by
    rw [textPartSchema]
    exact zodParse_obj_ok _ _ _
      (zodParseShape_cons_ok _ _ _ _ _ _ _ rfl (zodParse_enum_ok _ _ (by decide))
        (zodParseShape_cons_ok _ _ _ _ _ _ _ rfl (zodParse_str_ok _ _ (by decide))
          (zodParseShape_nil _)))
  have hfileAsText : zodParse textPartSchema sampleFilePart = .error "invalid enum value" := by
    rw [textPartSchema]
    exact zodParse_obj_err _ _ _
      (zodParseShape_cons_err _ _ _ _ _ _ rfl (zodParse_enum_err _ _ (by decide)))
  have hfile : zodParse filePartSchema sampleFilePart = .ok sampleFilePart := by
    rw [filePartSchema]
    exact zodParse_obj_ok _ _ _
      (zodParseShape_cons_ok _ _ _ _ _ _ _ rfl (zodParse_enum_ok _ _ (by decide))
        (zodParseShape_cons_ok _ _ _ _ _ _ _ rfl (zodParse_enum_ok _ _ (by decide))
          (zodParseShape_cons_ok _ _ _ _ _ _ _ rfl (zodParse_str_ok _ _ (by decide))
            (zodParseShape_cons_ok _ _ _ _ _ _ _ rfl (zodParse_str_ok _ _ (by decide))
              (zodParseShape_nil _)))))
  have hp1 : zodParse partSchema sampleTextPart = .ok sampleTextPart := by
    rw [partSchema, zodParse_union_def]
    exact zodParseUnion_cons_ok _ _ _ _ htext
  have hp2 : zodParse partSchema sampleFilePart = .ok sampleFilePart := by
    rw [partSchema, zodParse_union_def, zodParseUnion_cons_err _ _ _ _ hfileAsText]
    exact zodParseUnion_cons_ok _ _ _ _ hfile
  have hparts : zodParseList partSchema [sampleTextPart, sampleFilePart] =
      .ok [sampleTextPart, sampleFilePart] :=
    zodParseList_cons_ok _ _ _ _ _ hp1
      (zodParseList_cons_ok _ _ _ _ _ hp2 (zodParseList_nil _))
  have hmsg : zodParse
      (.obj [("id", .str [.uuid]), ("role", .enumS ["user"]),
        ("parts", .arrS partSchema)]) sampleMessage = .ok sampleMessage :=
    zodParse_obj_ok _ _ _
      (zodParseShape_cons_ok _ _ _ _ _ _ _ rfl (zodParse_str_ok _ _ (by decide))
        (zodParseShape_cons_ok _ _ _ _ _ _ _ rfl (zodParse_enum_ok _ _ (by decide))
          (zodParseShape_cons_ok _ _ _ _ _ _ _ rfl (zodParse_arr_ok _ _ _ hparts)
            (zodParseShape_nil _))))
  rw [postRequestBodySchema]
  exact zodParse_obj_ok _ _ _
    (zodParseShape_cons_ok _ _ _ _ _ _ _ rfl (zodParse_str_ok _ _ (by decide))
      (zodParseShape_cons_ok _ _ _ _ _ _ _ rfl hmsg
        (zodParseShape_cons_ok _ _ _ _ _ _ _ rfl (zodParse_enum_ok _ _ (by decide))
          (zodParseShape_cons_ok _ _ _ _ _ _ _ rfl (zodParse_enum_ok _ _ (by decide))
            (zodParseShape_nil _)))))

/-- C10 witness: a concrete body with one text part and one file part is
accepted, and the constraints follow for it. -/
theorem C10_witness :
    accepts postRequestBodySchema samplePostBody = true ∧
      (∃ s, jGet samplePostBody "id" = some (.str s) ∧ isUuidStr s = true) := by
  have hacc : accepts postRequestBodySchema samplePostBody = true := by
    show (zodParse postRequestBodySchema samplePostBody).isOk = true
    rw [samplePostBody_parses]
    rfl
  exact ⟨hacc, (C10_post_request_constraints samplePostBody hacc).1⟩

end TinmanChat
